import Mathlib

/-!
# The memoizing getter cache of `provider/cache.go`

A shallow embedding of `provider.Cached`: the instance record, the reset
handler, the seven typed accessors and the reset bus, and of the method
`HomeRegion` of the VW client (`internal/vehicle/vw/api.go`), followed by the
properties the specification states about them.

Conventions of the embedding.

* A `time.Time` is an integer number of nanoseconds counted from Go's zero
  timestamp (`time.Time{}`), a `time.Duration` is an integer number of
  nanoseconds, and `Time.Sub` saturates at the two ends of the signed 64-bit
  range as Go's does.
* Everything a getter can read or change outside the instance (the clock
  reading included) is an `Env`; a getter is a function on it.
* The instance lock makes every accessor call and every reset one atomic
  step, so a call is a function from the instance state and the environment
  to an `Outcome`.
* Instances live at addresses of the process heap (`Sys`). An accessor method
  called on a receiver returns a callable that keeps the receiver's address
  (`Sys.method`) and acts on the instance found there.
-/

namespace Provider

/-! ## Time -/

/-- Largest `time.Duration`: `1<<63 - 1` nanoseconds. -/
def maxDuration : Int := 9223372036854775807

/-- Smallest `time.Duration`: `-1<<63` nanoseconds. -/
def minDuration : Int := -9223372036854775808

/-- Go's zero timestamp `time.Time{}` (1 January of year 1, 00:00 UTC). -/
def zeroTime : Int := 0

/-- The Unix epoch (1 January 1970, 00:00 UTC) in nanoseconds after the zero
timestamp; the deterministic clock of `benbjohnson/clock` starts here. -/
def unixEpoch : Int := 62135596800000000000

/-- One second as a duration. -/
def second : Int := 1000000000

/-- One minute as a duration. -/
def minute : Int := 60 * second

/-- Go's `Time.Sub`: the difference `t - u`, replaced by the largest or the
smallest duration when it does not fit. -/
def Sub (t u : Int) : Int :=
  if maxDuration < t - u then maxDuration
  else if t - u < minDuration then minDuration
  else t - u

/-- The clock's `Since(t)`, which is `Now().Sub(t)`. -/
def Since (now t : Int) : Int := Sub now t

/-! ## Values, errors, getters -/

/-- A `float64`, kept as its bit pattern: the cache only stores and returns it. -/
structure Float64 where
  bits : Nat
deriving DecidableEq, Repr

/-- A Go `error`: `none` is `nil`, `some msg` is a non-nil error. -/
abbrev GoError := Option String

/-- What an `interface{}` field can hold: `nil` or a value with its dynamic type. -/
inductive Value where
  | nil
  | float64 (x : Float64)
  | int64 (x : Int)
  | string (x : String)
  | bool (x : Bool)
  | duration (x : Int)
  | time (x : Int)
  | other (goType : String) (repr : String)
deriving DecidableEq, Repr

/-- The world outside the instance: the reading of the instance's clock and
whatever else the wrapped getter reads or writes. -/
structure Env (σ : Type) where
  now : Int
  st : σ

/-- A Go `func() (α, error)`: it returns a pair and may change the world. -/
abbrev Fn (α σ : Type) := Env σ → (α × GoError) × Env σ

/-- The `getter interface{}` field: a function of one of the seven supported
types, or a value of any other type. -/
inductive Getter (σ : Type) where
  | float64 (g : Fn Float64 σ)
  | int64 (g : Fn Int σ)
  | string (g : Fn String σ)
  | bool (g : Fn Bool σ)
  | duration (g : Fn Int σ)
  | time (g : Fn Int σ)
  | iface (g : Fn Value σ)
  | other (goType : String)

/-- The seven result kinds the accessors exist for. -/
inductive Kind where
  | float64 | int64 | string | bool | duration | time | iface
deriving DecidableEq, Repr

/-! ## The instance -/

/-- The struct `Cached`. The lock, the logger and the clock handle carry no
data of their own here: the lock is the atomicity of a step, the logger is
`Fatalf`, the clock reading is `Env.now`. -/
structure Cached (σ : Type) where
  updated : Int
  cache : Int
  getter : Getter σ
  val : Value
  err : GoError

/-- What one accessor call leaves behind: the returned pair (`none` when the
type assertion of the `return` statement panics), the instance and the world
after the call, and how many times the wrapped getter ran inside it. -/
structure Outcome (α σ : Type) where
  ret : Option (α × GoError)
  c : Cached σ
  env : Env σ
  calls : Nat

/-- The callable an accessor method returns, applied to the current state of
the instance it is bound to. -/
abbrev Accessor (α σ : Type) := Cached σ → Env σ → Outcome α σ

/-- Go's `%T` of the getter. -/
def Getter.typeName : Getter σ → String
  | .float64 _ => "func() (float64, error)"
  | .int64 _ => "func() (int64, error)"
  | .string _ => "func() (string, error)"
  | .bool _ => "func() (bool, error)"
  | .duration _ => "func() (time.Duration, error)"
  | .time _ => "func() (time.Time, error)"
  | .iface _ => "func() (interface \x7b\x7d, error)"
  | .other t => t

/-- Modelled from the spec: the logger's `FATAL.Fatalf` (package `util`, not
among the sources) stops the program; what remains is its message. -/
def Fatalf (getter : Getter σ) : String := "invalid type: " ++ getter.typeName

/-- The struct literal of `NewCached`: `updated`, `val` and `err` keep their
zero values. -/
def Cached.init (getter : Getter σ) (cache : Int) : Cached σ :=
  { updated := zeroTime, cache := cache, getter := getter, val := Value.nil, err := none }

/-- The method `reset`. -/
def Cached.reset (c : Cached σ) : Cached σ :=
  { c with updated := zeroTime }

/-- The type assertion `v.(float64)`. -/
def asFloat64 : Value → Option Float64
  | .float64 x => some x
  | _ => none

/-- The type assertion `v.(int64)`. -/
def asInt64 : Value → Option Int
  | .int64 x => some x
  | _ => none

/-- The type assertion `v.(string)`. -/
def asString : Value → Option String
  | .string x => some x
  | _ => none

/-- The type assertion `v.(bool)`. -/
def asBool : Value → Option Bool
  | .bool x => some x
  | _ => none

/-- The type assertion `v.(time.Duration)`. -/
def asDuration : Value → Option Int
  | .duration x => some x
  | _ => none

/-- The type assertion `v.(time.Time)`. -/
def asTime : Value → Option Int
  | .time x => some x
  | _ => none

/-- The method `FloatGetter`. -/
def Cached.FloatGetter (c : Cached σ) : Except String (Accessor Float64 σ) :=
  match c.getter with
  | .float64 g => .ok (fun c env =>
      if Since env.now c.updated > c.cache then
        let r := g env
        let c := { c with val := Value.float64 r.1.1, err := r.1.2, updated := r.2.now }
        { ret := (asFloat64 c.val).map (fun v => (v, c.err)), c := c, env := r.2, calls := 1 }
      else
        { ret := (asFloat64 c.val).map (fun v => (v, c.err)), c := c, env := env, calls := 0 })
  | _ => .error (Fatalf c.getter)

/-- The method `IntGetter`. -/
def Cached.IntGetter (c : Cached σ) : Except String (Accessor Int σ) :=
  match c.getter with
  | .int64 g => .ok (fun c env =>
      if Since env.now c.updated > c.cache then
        let r := g env
        let c := { c with val := Value.int64 r.1.1, err := r.1.2, updated := r.2.now }
        { ret := (asInt64 c.val).map (fun v => (v, c.err)), c := c, env := r.2, calls := 1 }
      else
        { ret := (asInt64 c.val).map (fun v => (v, c.err)), c := c, env := env, calls := 0 })
  | _ => .error (Fatalf c.getter)

/-- The method `StringGetter`. -/
def Cached.StringGetter (c : Cached σ) : Except String (Accessor String σ) :=
  match c.getter with
  | .string g => .ok (fun c env =>
      if Since env.now c.updated > c.cache then
        let r := g env
        let c := { c with val := Value.string r.1.1, err := r.1.2, updated := r.2.now }
        { ret := (asString c.val).map (fun v => (v, c.err)), c := c, env := r.2, calls := 1 }
      else
        { ret := (asString c.val).map (fun v => (v, c.err)), c := c, env := env, calls := 0 })
  | _ => .error (Fatalf c.getter)

/-- The method `BoolGetter`. -/
def Cached.BoolGetter (c : Cached σ) : Except String (Accessor Bool σ) :=
  match c.getter with
  | .bool g => .ok (fun c env =>
      if Since env.now c.updated > c.cache then
        let r := g env
        let c := { c with val := Value.bool r.1.1, err := r.1.2, updated := r.2.now }
        { ret := (asBool c.val).map (fun v => (v, c.err)), c := c, env := r.2, calls := 1 }
      else
        { ret := (asBool c.val).map (fun v => (v, c.err)), c := c, env := env, calls := 0 })
  | _ => .error (Fatalf c.getter)

/-- The method `DurationGetter`. -/
def Cached.DurationGetter (c : Cached σ) : Except String (Accessor Int σ) :=
  match c.getter with
  | .duration g => .ok (fun c env =>
      if Since env.now c.updated > c.cache then
        let r := g env
        let c := { c with val := Value.duration r.1.1, err := r.1.2, updated := r.2.now }
        { ret := (asDuration c.val).map (fun v => (v, c.err)), c := c, env := r.2, calls := 1 }
      else
        { ret := (asDuration c.val).map (fun v => (v, c.err)), c := c, env := env, calls := 0 })
  | _ => .error (Fatalf c.getter)

/-- The method `TimeGetter`. -/
def Cached.TimeGetter (c : Cached σ) : Except String (Accessor Int σ) :=
  match c.getter with
  | .time g => .ok (fun c env =>
      if Since env.now c.updated > c.cache then
        let r := g env
        let c := { c with val := Value.time r.1.1, err := r.1.2, updated := r.2.now }
        { ret := (asTime c.val).map (fun v => (v, c.err)), c := c, env := r.2, calls := 1 }
      else
        { ret := (asTime c.val).map (fun v => (v, c.err)), c := c, env := env, calls := 0 })
  | _ => .error (Fatalf c.getter)

/-- The method `InterfaceGetter`: the stored value is returned as it is. -/
def Cached.InterfaceGetter (c : Cached σ) : Except String (Accessor Value σ) :=
  match c.getter with
  | .iface g => .ok (fun c env =>
      if Since env.now c.updated > c.cache then
        let r := g env
        let c := { c with val := r.1.1, err := r.1.2, updated := r.2.now }
        { ret := some (c.val, c.err), c := c, env := r.2, calls := 1 }
      else
        { ret := some (c.val, c.err), c := c, env := env, calls := 0 })
  | _ => .error (Fatalf c.getter)

/-! ## One view of the seven accessors

The statements below are made once for all seven accessors. `Cached.accessor`
selects the accessor method of a kind and presents the value it returns as a
`Value`; it adds nothing to what the method does. -/

/-- The returned value of an outcome seen as a `Value`. -/
def Outcome.box (inj : α → Value) (o : Outcome α σ) : Outcome Value σ :=
  { ret := o.ret.map (fun p => (inj p.1, p.2)), c := o.c, env := o.env, calls := o.calls }

/-- A callable with its returned value seen as a `Value`. -/
def boxed (inj : α → Value) (r : Except String (Accessor α σ)) :
    Except String (Accessor Value σ) :=
  match r with
  | .ok f => .ok (fun c env => (f c env).box inj)
  | .error e => .error e

/-- The accessor method of kind `k`. -/
def Cached.accessor (k : Kind) (c : Cached σ) : Except String (Accessor Value σ) :=
  match k with
  | .float64 => boxed Value.float64 c.FloatGetter
  | .int64 => boxed Value.int64 c.IntGetter
  | .string => boxed Value.string c.StringGetter
  | .bool => boxed Value.bool c.BoolGetter
  | .duration => boxed Value.duration c.DurationGetter
  | .time => boxed Value.time c.TimeGetter
  | .iface => boxed id c.InterfaceGetter

/-- The kind of a getter, when it is one of the seven function types. -/
def Getter.kind : Getter σ → Option Kind
  | .float64 _ => some .float64
  | .int64 _ => some .int64
  | .string _ => some .string
  | .bool _ => some .bool
  | .duration _ => some .duration
  | .time _ => some .time
  | .iface _ => some .iface
  | .other _ => none

/-- One invocation of the getter, its value seen as a `Value`. -/
def Getter.invoke : Getter σ → Fn Value σ
  | .float64 g => fun env => ((Value.float64 (g env).1.1, (g env).1.2), (g env).2)
  | .int64 g => fun env => ((Value.int64 (g env).1.1, (g env).1.2), (g env).2)
  | .string g => fun env => ((Value.string (g env).1.1, (g env).1.2), (g env).2)
  | .bool g => fun env => ((Value.bool (g env).1.1, (g env).1.2), (g env).2)
  | .duration g => fun env => ((Value.duration (g env).1.1, (g env).1.2), (g env).2)
  | .time g => fun env => ((Value.time (g env).1.1, (g env).1.2), (g env).2)
  | .iface g => g
  | .other _ => fun env => ((Value.nil, none), env)

/-- Whether a stored value passes the type assertion of the accessor of kind `k`. -/
def Value.hasKind : Kind → Value → Bool
  | .float64, .float64 _ => true
  | .int64, .int64 _ => true
  | .string, .string _ => true
  | .bool, .bool _ => true
  | .duration, .duration _ => true
  | .time, .time _ => true
  | .iface, _ => true
  | _, _ => false

/-- The instance after a recompute by `getter` that ran in world `env`. -/
def Cached.refreshed (c : Cached σ) (getter : Getter σ) (env : Env σ) : Cached σ :=
  { c with val := (getter.invoke env).1.1, err := (getter.invoke env).1.2,
           updated := (getter.invoke env).2.now }

/-- The pair a call returns from instance state `c` through the accessor of
kind `k`: none when the type assertion panics. -/
def Cached.returned (k : Kind) (c : Cached σ) : Option (Value × GoError) :=
  if c.val.hasKind k then some (c.val, c.err) else none

/-- The common shape of the seven callables, for the accessor of kind `k`
bound to `getter` (shown equal to each of them in `accessor_ok`). -/
def memoStep (k : Kind) (getter : Getter σ) : Accessor Value σ :=
  fun c env =>
    if Since env.now c.updated > c.cache then
      { ret := (c.refreshed getter env).returned k, c := c.refreshed getter env,
        env := (getter.invoke env).2, calls := 1 }
    else
      { ret := c.returned k, c := c, env := env, calls := 0 }

/-- `n` accessor calls one after the other, the `i`-th made when the clock
reads the `i`-th element of the list; between calls only the clock moves.
The result lists what each call returned (`none` for a call whose type
assertion panicked) and counts the getter invocations. -/
def runCalls (f : Accessor α σ) : Cached σ → σ → List Int →
    List (Option (α × GoError)) × Cached σ × σ × Nat
  | c, st, [] => ([], c, st, 0)
  | c, st, t :: ts =>
    let o := f c { now := t, st := st }
    let r := runCalls f o.c o.env.st ts
    (o.ret :: r.1, r.2.1, r.2.2.1, o.calls + r.2.2.2)

/-! ## The reset bus and the instances it reaches -/

/-- The instances of the process, addressed by position, and the reset
handlers subscribed to the bus: entry `i` of `bus` stands for the bound method
`c.reset` of the instance at address `i`. -/
structure Sys (σ : Type) where
  heap : List (Cached σ)
  bus : List Nat

/-- The process before any instance is built. -/
def Sys.empty : Sys σ := { heap := [], bus := [] }

/-- The function `NewCached`: build the instance and subscribe its reset
handler. Returns the address of the new instance. -/
def NewCached (s : Sys σ) (getter : Getter σ) (cache : Int) : Nat × Sys σ :=
  (s.heap.length,
   { heap := s.heap ++ [Cached.init getter cache], bus := s.bus ++ [s.heap.length] })

/-- Modelled from the spec: the bus's `Publish` (package `EventBus`, not among
the sources) invokes every currently registered handler, one after the other. -/
def Publish : List Nat → List (Cached σ) → List (Cached σ)
  | [], heap => heap
  | i :: rest, heap =>
    match heap[i]? with
    | some c => Publish rest (heap.set i c.reset)
    | none => Publish rest heap

/-- The function `ResetCached`. -/
def ResetCached (s : Sys σ) : Sys σ :=
  { s with heap := Publish s.bus s.heap }

/-- An accessor call on the instance at address `i`. -/
def Sys.call (s : Sys σ) (i : Nat) (f : Accessor α σ) (env : Env σ) :
    Option (Outcome α σ × Sys σ) :=
  match s.heap[i]? with
  | some c => some (f c env, { s with heap := s.heap.set i (f c env).c })
  | none => none

/-- A callable as the program holds it: a `func() (α, error)` value that, when
called, acts on the process. -/
abbrev Callable (α σ : Type) := Sys σ → Env σ → Option (Outcome α σ × Sys σ)

/-- An accessor method `m` called on the receiver `c *Cached` at address `p`.
The type assertion reads the receiver's getter; the closure that is returned
refers to the receiver through `p`, so each time it is called it locks, reads
and writes the instance that is at `p` then. A receiver that does not exist
is a nil pointer dereference. -/
def Sys.method (m : Cached σ → Except String (Accessor α σ)) (s : Sys σ) (p : Nat) :
    Except String (Callable α σ) :=
  match s.heap[p]? with
  | some c =>
    match m c with
    | .ok f => .ok (fun s env => s.call p f env)
    | .error e => .error e
  | none => .error "invalid memory address or nil pointer dereference"

/-- The method `FloatGetter` called on the instance at address `p`. -/
def Sys.FloatGetter (s : Sys σ) (p : Nat) : Except String (Callable Float64 σ) :=
  Sys.method Cached.FloatGetter s p

/-- The accessor method of kind `k` called on the instance at address `p`. -/
def Sys.accessor (s : Sys σ) (p : Nat) (k : Kind) : Except String (Callable Value σ) :=
  Sys.method (Cached.accessor k) s p

/-- The states a process reaches: instances are built, accessors are called,
resets are published. -/
inductive Sys.Reachable : Sys σ → Prop where
  | empty : Sys.Reachable Sys.empty
  | newCached (s : Sys σ) (getter : Getter σ) (cache : Int) :
      Sys.Reachable s → Sys.Reachable (NewCached s getter cache).2
  | call (s : Sys σ) (i : Nat) (k : Kind) (c : Cached σ) (f : Accessor Value σ) (env : Env σ) :
      Sys.Reachable s → s.heap[i]? = some c → c.accessor k = .ok f →
      Sys.Reachable { s with heap := s.heap.set i (f c env).c }
  | reset (s : Sys σ) : Sys.Reachable s → Sys.Reachable (ResetCached s)

/-- The states one instance built with `getter` and `cache` passes through. -/
inductive Cached.Reachable (getter : Getter σ) (cache : Int) : Cached σ → Prop where
  | init : Cached.Reachable getter cache (Cached.init getter cache)
  | call (c : Cached σ) (k : Kind) (f : Accessor Value σ) (env : Env σ) :
      Cached.Reachable getter cache c → c.accessor k = .ok f →
      Cached.Reachable getter cache (f c env).c
  | reset (c : Cached σ) :
      Cached.Reachable getter cache c → Cached.Reachable getter cache c.reset

/-! ## Getters used in the worked scenarios -/

/-- An `int64` getter over a call counter: 42 on the first call, 43 on the
second, and so on. It leaves the clock alone. -/
def countingInt : Fn Int Nat :=
  fun env => ((42 + (env.st : Int), none), { env with st := env.st + 1 })

/-- A `float64` getter over a call counter. -/
def countingFloat : Fn Float64 Nat :=
  fun env => ((Float64.mk env.st, none), { env with st := env.st + 1 })

/-- A `float64` getter that always fails, counting its calls. -/
def failingFloat : Fn Float64 Nat :=
  fun env => ((Float64.mk 0, some "upstream unavailable"), { env with st := env.st + 1 })

/-- An `interface{}` getter over a call counter. -/
def countingIface : Fn Value Nat :=
  fun env => ((Value.string "v", none), { env with st := env.st + 1 })

/-- A fresh `float64` instance with a one-minute TTL, as `NewCached` leaves it
in an otherwise empty process. -/
def demoSys : Sys Nat := (NewCached Sys.empty (Getter.float64 countingFloat) minute).2

/-- The instance of `demoSys` after its first value was consumed at the Unix epoch. -/
def demoSysUsed : Sys Nat :=
  { demoSys with
    heap := (demoSys.heap.set 0 (memoStep Kind.float64 (Getter.float64 countingFloat)
      (Cached.init (Getter.float64 countingFloat) minute) { now := unixEpoch, st := 0 }).c) }

/-- One hour as a duration. -/
def hour : Int := 60 * minute

/-- Two instances with long TTLs (one hour and one day), freshly built. -/
def pairSys : Sys Nat :=
  (NewCached (NewCached Sys.empty (Getter.float64 countingFloat) hour).2
    (Getter.int64 countingInt) (24 * hour)).2

/-- The process `pairSys` after one value was consumed from the first instance. -/
def pairSysFirst : Sys Nat :=
  { pairSys with
    heap := (pairSys.heap.set 0 (memoStep Kind.float64 (Getter.float64 countingFloat)
      (Cached.init (Getter.float64 countingFloat) hour) { now := unixEpoch, st := 0 }).c) }

/-- The process `pairSys` after one value was consumed from each instance. -/
def pairSysUsed : Sys Nat :=
  { pairSysFirst with
    heap := (pairSysFirst.heap.set 1 (memoStep Kind.int64 (Getter.int64 countingInt)
      (Cached.init (Getter.int64 countingInt) (24 * hour)) { now := unixEpoch, st := 1 }).c) }

/-- Two fresh `float64` instances with the same getter and a one-minute TTL. -/
def twinSys : Sys Nat :=
  (NewCached (NewCached Sys.empty (Getter.float64 countingFloat) minute).2
    (Getter.float64 countingFloat) minute).2

/-- Two fresh instances, the second with the largest duration as its TTL. -/
def maxSys : Sys Nat :=
  (NewCached (NewCached Sys.empty (Getter.float64 countingFloat) hour).2
    (Getter.iface countingIface) maxDuration).2

/-- The states one instance built with `getter` and `cache` passes through,
each with the world in which the most recent getter invocation ran (`none`
while the getter has never run). A call moves that mark exactly when it
invoked the getter. -/
inductive Cached.History (getter : Getter σ) (cache : Int) :
    Cached σ → Option (Env σ) → Prop where
  | init : Cached.History getter cache (Cached.init getter cache) none
  | call (c : Cached σ) (last : Option (Env σ)) (k : Kind) (f : Accessor Value σ)
      (env : Env σ) :
      Cached.History getter cache c last → c.accessor k = .ok f →
      Cached.History getter cache (f c env).c (if (f c env).calls = 0 then last else some env)
  | reset (c : Cached σ) (last : Option (Env σ)) :
      Cached.History getter cache c last → Cached.History getter cache c.reset last

/-- The memo transition of lines 63 to 66, with the type of the getter's value
erased: from the instance, the world and what one getter invocation would
give, the instance and the world after the step and the number of getter
invocations. -/
def memoTransition (c : Cached σ) (env : Env σ) (r : (Value × GoError) × Env σ) :
    Cached σ × Env σ × Nat :=
  if Since env.now c.updated > c.cache then
    ({ c with val := r.1.1, err := r.1.2, updated := r.2.now }, r.2, 1)
  else
    (c, env, 0)

/-- What the memo transition keeps of an outcome. -/
def Outcome.transition (o : Outcome α σ) : Cached σ × Env σ × Nat := (o.c, o.env, o.calls)

/-- A `float64` getter that takes ten seconds of the clock to answer. -/
def slowFloat : Fn Float64 Nat :=
  fun env => ((Float64.mk env.st, none), { now := env.now + 10 * second, st := env.st + 1 })

/-- A `bool` getter over a call counter. -/
def countingBool : Fn Bool Nat :=
  fun env => ((true, none), { env with st := env.st + 1 })

end Provider

/-! ## The home region of the VW client (`internal/vehicle/vw/api.go`)

A Go string is kept as its list of characters. The three functions of package
`strings` used here test and cut at ASCII patterns, where cutting bytes and
cutting characters agree. -/

namespace Vw

/-- The constant `DefaultBaseURI`. -/
def DefaultBaseURI : List Char := "https://msg.volkswagen.de/fs-car".toList

/-- The constant `RegionAPI`. -/
def RegionAPI : List Char := "https://mal-1a.prd.ece.vwg-connect.com/api".toList

/-- Go's `strings.HasPrefix`. -/
def HasPrefix (s pre : List Char) : Bool := pre.isPrefixOf s

/-- Go's `strings.HasSuffix`. -/
def HasSuffix (s suf : List Char) : Bool := suf.isSuffixOf s

/-- Go's `strings.TrimPrefix`: `s[len(pre):]` when `s` starts with `pre`. -/
def TrimPrefix (s pre : List Char) : List Char :=
  if HasPrefix s pre then s.drop pre.length else s

/-- Go's `strings.TrimSuffix`: `s[:len(s)-len(suf)]` when `s` ends with `suf`. -/
def TrimSuffix (s suf : List Char) : List Char :=
  if HasSuffix s suf then s.take (s.length - suf.length) else s

/-- The struct `API`, without the embedded request helper. -/
structure API where
  brand : List Char
  country : List Char
  baseURI : List Char

/-- The response struct `HomeRegion`; `Content` is `HomeRegion.BaseURI.Content`. -/
structure HomeRegion where
  SystemID : List Char
  Content : List Char

/-- The URI `HomeRegion` asks: `RegionAPI`, then the path with the vehicle's `vin`. -/
def homeRegionURI (vin : List Char) : List Char :=
  RegionAPI ++ "/cs/vds/v1/vehicles/".toList ++ vin ++ "/homeRegion".toList

/-- The method `HomeRegion`. The request itself (`getJSON`, which goes through
the request helper and the network) is a parameter: for a URI it gives the
error and the decoded response. The result is the returned error and the
client afterwards. -/
def API.HomeRegion (getJSON : List Char → Option String × HomeRegion) (v : API)
    (vin : List Char) : Option String × API :=
  let uri := homeRegionURI vin
  let r := getJSON uri
  if r.1 = none then
    let api := r.2.Content
    if HasPrefix api "https://mal-3a.prd.eu.dp.vwg-connect.com".toList then
      let api := "https://fal".toList ++ TrimPrefix api "https://mal".toList
      let api := TrimSuffix api "/api".toList ++ "/fs-car".toList
      (r.1, { v with baseURI := api })
    else
      (r.1, v)
  else
    (r.1, v)

end Vw

namespace Provider

/-! ## Basic facts -/

theorem Sub_le_max (t u : Int) : Sub t u ≤ maxDuration := by
  unfold Sub
  split_ifs <;> simp only [maxDuration, minDuration] at * <;> omega

theorem Since_le_max (now t : Int) : Since now t ≤ maxDuration := Sub_le_max now t

theorem Since_zero_of_late (now : Int) (h : maxDuration ≤ now) :
    Since now zeroTime = maxDuration := by
  unfold Since Sub zeroTime
  simp only [maxDuration, minDuration] at *
  split_ifs <;> omega

theorem unixEpoch_late : maxDuration ≤ unixEpoch := by
  simp only [maxDuration, unixEpoch]; decide

theorem accessor_ok (k : Kind) (c : Cached σ) (h : c.getter.kind = some k) :
    c.accessor k = .ok (memoStep k c.getter) := by
  cases hg : c.getter <;> cases k <;> simp [hg, Getter.kind] at h <;>
    simp only [Cached.accessor, boxed, Cached.FloatGetter, Cached.IntGetter,
      Cached.StringGetter, Cached.BoolGetter, Cached.DurationGetter, Cached.TimeGetter,
      Cached.InterfaceGetter, hg] <;>
    congr 1 <;> funext c1 env <;>
    simp only [memoStep, Outcome.box, Cached.refreshed, Cached.returned, Getter.invoke] <;>
    split_ifs <;>
    first
      | rfl
      | (cases hv : c1.val <;>
          simp_all [asFloat64, asInt64, asString, asBool, asDuration, asTime, Value.hasKind])

theorem accessor_error (k : Kind) (c : Cached σ) (h : c.getter.kind ≠ some k) :
    c.accessor k = .error (Fatalf c.getter) := by
  cases hg : c.getter <;> cases k <;> simp [hg, Getter.kind] at h <;>
    simp [Cached.accessor, boxed, Cached.FloatGetter, Cached.IntGetter,
      Cached.StringGetter, Cached.BoolGetter, Cached.DurationGetter, Cached.TimeGetter,
      Cached.InterfaceGetter, hg]

theorem accessor_kind (k : Kind) (c : Cached σ) (f : Accessor Value σ)
    (h : c.accessor k = .ok f) : c.getter.kind = some k := by
  by_contra hne
  rw [accessor_error k c hne] at h
  cases h

theorem accessor_eq (k : Kind) (c : Cached σ) (f : Accessor Value σ)
    (h : c.accessor k = .ok f) : f = memoStep k c.getter := by
  rw [accessor_ok k c (accessor_kind k c f h)] at h
  injection h with h
  exact h.symm

theorem invoke_hasKind (k : Kind) (getter : Getter σ) (env : Env σ)
    (h : getter.kind = some k) : (getter.invoke env).1.1.hasKind k = true := by
  cases getter <;> cases k <;> simp [Getter.kind] at h <;>
    simp [Getter.invoke, Value.hasKind]

theorem returned_refreshed (k : Kind) (c : Cached σ) (getter : Getter σ) (env : Env σ)
    (h : getter.kind = some k) :
    (c.refreshed getter env).returned k = some (getter.invoke env).1 := by
  simp [Cached.returned, Cached.refreshed, invoke_hasKind k getter env h]

theorem memoStep_stale (k : Kind) (getter : Getter σ) (c : Cached σ) (env : Env σ)
    (hk : getter.kind = some k) (h : Since env.now c.updated > c.cache) :
    memoStep k getter c env =
      { ret := some (getter.invoke env).1, c := c.refreshed getter env,
        env := (getter.invoke env).2, calls := 1 } := by
  simp [memoStep, h, returned_refreshed k c getter env hk]

theorem memoStep_fresh (k : Kind) (getter : Getter σ) (c : Cached σ) (env : Env σ)
    (h : Since env.now c.updated ≤ c.cache) :
    memoStep k getter c env = { ret := c.returned k, c := c, env := env, calls := 0 } := by
  have h2 : ¬ (Since env.now c.updated > c.cache) := not_lt.mpr h
  simp [memoStep, h2]

theorem memoStep_getter (k : Kind) (getter : Getter σ) (c : Cached σ) (env : Env σ) :
    (memoStep k getter c env).c.getter = c.getter ∧
    (memoStep k getter c env).c.cache = c.cache := by
  unfold memoStep
  split_ifs <;> simp [Cached.refreshed]

/-- The stored pair of an instance bound to `getter` is the initial
`(nil, nil)` or passes the type assertion of the getter's accessor. -/
theorem memo_typed (getter : Getter σ) (cache : Int) (c : Cached σ)
    (h : Cached.Reachable getter cache c) :
    c.getter = getter ∧ c.cache = cache ∧
    ((c.val = Value.nil ∧ c.err = none) ∨ ∀ k, getter.kind = some k → c.val.hasKind k = true) := by
  induction h with
  | init => simp [Cached.init]
  | call c k f env _ hf ih =>
    obtain ⟨hg, hc, hv⟩ := ih
    have hk := accessor_kind k c f hf
    rw [accessor_eq k c f hf]
    refine ⟨by rw [(memoStep_getter k c.getter c env).1, hg],
            by rw [(memoStep_getter k c.getter c env).2, hc], ?_⟩
    unfold memoStep
    split_ifs
    · right
      intro k2 hk2
      rw [hg] at hk
      rw [hk] at hk2
      cases hk2
      rw [hg]
      exact invoke_hasKind k getter env hk
    · exact hv
  | reset c _ ih => simpa [Cached.reset] using ih

theorem reset_reset (c : Cached σ) : c.reset.reset = c.reset := rfl

theorem Publish_length (hs : List Nat) (heap : List (Cached σ)) :
    (Publish hs heap).length = heap.length := by
  induction hs generalizing heap with
  | nil => rfl
  | cons i rest ih =>
    unfold Publish
    split
    · rw [ih]; simp
    · exact ih heap

theorem Publish_get (hs : List Nat) (heap : List (Cached σ)) (i : Nat) :
    (Publish hs heap)[i]? = if i ∈ hs then (heap[i]?).map Cached.reset else heap[i]? := by
  induction hs generalizing heap with
  | nil => simp [Publish]
  | cons j rest ih =>
    unfold Publish
    split
    · rename_i c hc
      rw [ih]
      by_cases hij : j = i
      · subst hij
        have hlt : j < heap.length := (List.getElem?_eq_some_iff.mp hc).1
        simp [List.getElem?_set, hlt, hc, reset_reset]
      · have hij2 : ¬ i = j := fun h => hij h.symm
        simp [List.getElem?_set, hij, hij2]
    · rename_i hc
      rw [ih]
      by_cases hij : j = i
      · subst hij
        simp [hc]
      · have hij2 : ¬ i = j := fun h => hij h.symm
        simp [hij2]

theorem reachable_bus (s : Sys σ) (h : Sys.Reachable s) :
    s.bus = List.range s.heap.length := by
  induction h with
  | empty => rfl
  | newCached s getter cache _ ih =>
    simp [NewCached, ih, List.range_succ]
  | call s i k c f env _ _ _ ih => simpa using ih
  | reset s _ ih => simpa [ResetCached, Publish_length] using ih

theorem ResetCached_get (s : Sys σ) (h : Sys.Reachable s) (i : Nat) (c : Cached σ)
    (hc : s.heap[i]? = some c) : (ResetCached s).heap[i]? = some c.reset := by
  have hlt : i < s.heap.length := (List.getElem?_eq_some_iff.mp hc).1
  simp [ResetCached, Publish_get, reachable_bus s h, hlt, hc]

theorem runCalls_fresh (k : Kind) (getter : Getter σ) (c : Cached σ) (st : σ) (ts : List Int)
    (h : ∀ t ∈ ts, Since t c.updated ≤ c.cache) :
    runCalls (memoStep k getter) c st ts = (List.replicate ts.length (c.returned k), c, st, 0) := by
  induction ts generalizing st with
  | nil => rfl
  | cons t ts ih =>
    have ht : Since t c.updated ≤ c.cache := h t (List.mem_cons_self t ts)
    have hts : ∀ u ∈ ts, Since u c.updated ≤ c.cache :=
      fun u hu => h u (List.mem_cons_of_mem t hu)
    have hstep := memoStep_fresh k getter c { now := t, st := st } ht
    simp only [runCalls, hstep, ih st hts, List.replicate_succ, List.length_cons, Nat.add_zero]

theorem call_of_get (s : Sys σ) (i : Nat) (c : Cached σ) (f : Accessor α σ) (env : Env σ)
    (h : s.heap[i]? = some c) :
    s.call i f env = some (f c env, { s with heap := s.heap.set i (f c env).c }) := by
  simp only [Sys.call, h]

theorem Since_nonneg (now t : Int) (h : t ≤ now) : 0 ≤ Since now t := by
  unfold Since Sub
  simp only [maxDuration, minDuration]
  split_ifs <;> omega

theorem Since_pos (now t : Int) (h : t < now) : 0 < Since now t := by
  unfold Since Sub
  simp only [maxDuration, minDuration]
  split_ifs <;> omega

theorem Since_self (t : Int) : Since t t = 0 := by
  unfold Since Sub
  simp only [maxDuration, minDuration]
  split_ifs <;> omega

theorem memoStep_calls (k : Kind) (getter : Getter σ) (c : Cached σ) (env : Env σ) :
    (memoStep k getter c env).calls = if Since env.now c.updated > c.cache then 1 else 0 := by
  unfold memoStep
  split_ifs <;> rfl

/-! ## The claims -/

/-- Memoization inside one window, where the first access recomputes. On a
freshly constructed instance whose first accessor
call finds the elapsed time since the zero timestamp greater than the TTL `d`,
`n = ts.length + 1` accessor calls, the later ones made at clock readings
whose elapsed time since the first call's recompute stamp never exceeds `d`,
invoke the wrapped getter exactly once in total, every call returns the pair
that single invocation produced, and the world is the one that single
invocation left. -/
theorem memo_within_window (k : Kind) (getter : Getter σ) (d : Int) (st : σ) (t1 : Int)
    (ts : List Int) (f : Accessor Value σ)
    (hf : (Cached.init getter d).accessor k = .ok f)
    (hfirst : Since t1 zeroTime > d)
    (hwin : ∀ t ∈ ts, Since t (getter.invoke { now := t1, st := st }).2.now ≤ d) :
    (runCalls f (Cached.init getter d) st (t1 :: ts)).2.2.2 = 1 ∧
    (runCalls f (Cached.init getter d) st (t1 :: ts)).1 =
      List.replicate (ts.length + 1) (some (getter.invoke { now := t1, st := st }).1) ∧
    (runCalls f (Cached.init getter d) st (t1 :: ts)).2.2.1 =
      (getter.invoke { now := t1, st := st }).2.st := by
  have hk : getter.kind = some k := accessor_kind k _ f hf
  have hfe : f = memoStep k getter := accessor_eq k _ f hf
  subst hfe
  have hstep := memoStep_stale k getter (Cached.init getter d) { now := t1, st := st } hk hfirst
  have hrest := runCalls_fresh k getter ((Cached.init getter d).refreshed getter
      { now := t1, st := st }) (getter.invoke { now := t1, st := st }).2.st ts hwin
  have hret := returned_refreshed k (Cached.init getter d) getter { now := t1, st := st } hk
  simp [runCalls, hstep, hrest, hret, List.replicate_succ]

/-- One-minute TTL, three calls at the epoch, 20 s and 60 s later: one
invocation, three times the same pair. -/
theorem memo_within_window_witness :
    (runCalls (memoStep Kind.float64 (Getter.float64 countingFloat))
      (Cached.init (Getter.float64 countingFloat) minute) 0
      [unixEpoch, unixEpoch + 20 * second, unixEpoch + minute]).2.2.2 = 1 ∧
    (runCalls (memoStep Kind.float64 (Getter.float64 countingFloat))
      (Cached.init (Getter.float64 countingFloat) minute) 0
      [unixEpoch, unixEpoch + 20 * second, unixEpoch + minute]).1 =
      List.replicate 3 (some (Value.float64 (Float64.mk 0), none)) :=
  have h := memo_within_window Kind.float64 (Getter.float64 countingFloat) minute 0 unixEpoch
    [unixEpoch + 20 * second, unixEpoch + minute]
    (memoStep Kind.float64 (Getter.float64 countingFloat))
    (accessor_ok Kind.float64 _ rfl) (by decide) (by decide)
  ⟨h.1, h.2.1⟩

/-- C1, the code at the failing input. With the largest duration as TTL (which
is at least 0) a single `FloatGetter` call on a fresh instance, made at the
Unix epoch, stays within the window of the stamp the call leaves, yet the
getter is invoked zero times, not once, and the call returns nothing (its type
assertion panics on the unset memo). -/
theorem memo_window_max_ttl :
    0 ≤ maxDuration ∧
    ∃ f, (Cached.init (Getter.float64 countingFloat) maxDuration).FloatGetter = .ok f ∧
      Since unixEpoch (f (Cached.init (Getter.float64 countingFloat) maxDuration)
        { now := unixEpoch, st := 0 }).c.updated ≤ maxDuration ∧
      (runCalls f (Cached.init (Getter.float64 countingFloat) maxDuration) 0
        [unixEpoch]).2.2.2 = 0 ∧
      (runCalls f (Cached.init (Getter.float64 countingFloat) maxDuration) 0
        [unixEpoch]).1 = [none] :=
  ⟨by decide, _, rfl, by decide, by decide, by decide⟩

/-- C2. For every instance with TTL `c.cache` whose last recompute stamped
`c.updated`, an accessor call made when the elapsed time since that stamp is
greater than the TTL invokes the wrapped getter exactly once, returns the pair
that invocation produced, and stores it with the clock reading taken after the
getter returned. -/
theorem recompute_after_ttl (k : Kind) (c : Cached σ) (f : Accessor Value σ) (env : Env σ)
    (hf : c.accessor k = .ok f) (hstale : Since env.now c.updated > c.cache) :
    (f c env).calls = 1 ∧
    (f c env).ret = some (c.getter.invoke env).1 ∧
    (f c env).env = (c.getter.invoke env).2 ∧
    (f c env).c = c.refreshed c.getter env := by
  have hk : c.getter.kind = some k := accessor_kind k c f hf
  rw [accessor_eq k c f hf, memoStep_stale k c.getter c env hk hstale]
  exact ⟨rfl, rfl, rfl, rfl⟩

/-- Witness of C2, the scenario of the specification: TTL of one minute, an
`int64` getter returning 42 and then 43, a deterministic clock started at its
epoch. `IntGetter` gives 42 at 0 s, 42 at 30 s and 43 at 61 s with two getter
invocations overall; the third call is the recompute of the theorem. -/
theorem recompute_after_ttl_witness :
    (∃ g, (Cached.init (Getter.int64 countingInt) minute).IntGetter = .ok g ∧
      (runCalls g (Cached.init (Getter.int64 countingInt) minute) 0
        [unixEpoch, unixEpoch + 30 * second, unixEpoch + 61 * second]).1 =
        [some (42, none), some (42, none), some (43, none)] ∧
      (runCalls g (Cached.init (Getter.int64 countingInt) minute) 0
        [unixEpoch, unixEpoch + 30 * second, unixEpoch + 61 * second]).2.2.2 = 2 ∧
      (runCalls g (Cached.init (Getter.int64 countingInt) minute) 0
        [unixEpoch, unixEpoch + 30 * second]).2.1.updated = unixEpoch) ∧
    Since (unixEpoch + 61 * second) unixEpoch > minute ∧
    (memoStep Kind.int64 (Getter.int64 countingInt)
      { updated := unixEpoch, cache := minute, getter := Getter.int64 countingInt,
        val := Value.int64 42, err := none }
      { now := unixEpoch + 61 * second, st := 1 }).calls = 1 ∧
    (memoStep Kind.int64 (Getter.int64 countingInt)
      { updated := unixEpoch, cache := minute, getter := Getter.int64 countingInt,
        val := Value.int64 42, err := none }
      { now := unixEpoch + 61 * second, st := 1 }).ret = some (Value.int64 43, none) :=
  have h := recompute_after_ttl Kind.int64
    { updated := unixEpoch, cache := minute, getter := Getter.int64 countingInt,
      val := Value.int64 42, err := none }
    (memoStep Kind.int64 (Getter.int64 countingInt))
    { now := unixEpoch + 61 * second, st := 1 }
    (accessor_ok Kind.int64 _ rfl) (by decide)
  ⟨⟨_, rfl, by decide, by decide, by decide⟩, by decide, h.1, h.2.1⟩

/-- C3, the code at the failing input. With the largest duration as TTL the
elapsed time since the zero timestamp, saturated, is not greater than the TTL:
the first `FloatGetter` call on a fresh instance, made on 1 January 2021, does
not invoke the getter, leaves the instance as built and returns nothing (the
assertion `c.val.(float64)` panics on the nil value); the first
`InterfaceGetter` call returns `(nil, nil)` without invoking the getter. -/
theorem first_access_max_ttl :
    Since (unixEpoch + 1609459200 * second) zeroTime = maxDuration ∧
    (∃ f, (Cached.init (Getter.float64 countingFloat) maxDuration).FloatGetter = .ok f ∧
      (f (Cached.init (Getter.float64 countingFloat) maxDuration)
        { now := unixEpoch + 1609459200 * second, st := 0 }).calls = 0 ∧
      (f (Cached.init (Getter.float64 countingFloat) maxDuration)
        { now := unixEpoch + 1609459200 * second, st := 0 }).ret = none ∧
      (f (Cached.init (Getter.float64 countingFloat) maxDuration)
        { now := unixEpoch + 1609459200 * second, st := 0 }).c.updated = zeroTime ∧
      (f (Cached.init (Getter.float64 countingFloat) maxDuration)
        { now := unixEpoch + 1609459200 * second, st := 0 }).env.st = 0) ∧
    (∃ f, (Cached.init (Getter.iface countingIface) maxDuration).InterfaceGetter = .ok f ∧
      (f (Cached.init (Getter.iface countingIface) maxDuration)
        { now := unixEpoch + 1609459200 * second, st := 0 }).calls = 0 ∧
      (f (Cached.init (Getter.iface countingIface) maxDuration)
        { now := unixEpoch + 1609459200 * second, st := 0 }).ret = some (Value.nil, none)) :=
  ⟨by decide, ⟨_, rfl, by decide, by decide, by decide, by decide⟩,
    ⟨_, rfl, by decide, by decide⟩⟩

/-- C4. When the getter invocation of a recomputing accessor call returns a
non-nil error `e`, that call returns `e` with the getter's value, and a second
call made while the elapsed time since that recompute does not exceed the TTL
returns the same pair, does not invoke the getter and leaves the instance and
the world as they were. -/
theorem error_memoized (k : Kind) (c : Cached σ) (f : Accessor Value σ) (env1 env2 : Env σ)
    (e : String) (hf : c.accessor k = .ok f)
    (hstale : Since env1.now c.updated > c.cache)
    (herr : (c.getter.invoke env1).1.2 = some e)
    (hwin : Since env2.now (f c env1).c.updated ≤ c.cache) :
    (f c env1).ret = some ((c.getter.invoke env1).1.1, some e) ∧
    (f (f c env1).c env2).ret = some ((c.getter.invoke env1).1.1, some e) ∧
    (f (f c env1).c env2).calls = 0 ∧
    (f (f c env1).c env2).env = env2 ∧
    (f (f c env1).c env2).c = (f c env1).c := by
  have hk : c.getter.kind = some k := accessor_kind k c f hf
  have hfe := accessor_eq k c f hf
  subst hfe
  have h1 := memoStep_stale k c.getter c env1 hk hstale
  rw [h1] at hwin ⊢
  have h2 := memoStep_fresh k c.getter (c.refreshed c.getter env1) env2 hwin
  have hret := returned_refreshed k c c.getter env1 hk
  have hpair : (c.getter.invoke env1).1 = ((c.getter.invoke env1).1.1, some e) := by
    rw [← herr]
  simp only [h2, hret]
  rw [← hpair]
  simp

/-- Witness of C4: a failing `float64` getter behind a one-minute TTL, called
at the epoch and again 59 s later. -/
theorem error_memoized_witness :
    (memoStep Kind.float64 (Getter.float64 failingFloat)
      (memoStep Kind.float64 (Getter.float64 failingFloat)
        (Cached.init (Getter.float64 failingFloat) minute) { now := unixEpoch, st := 0 }).c
      { now := unixEpoch + 59 * second, st := 1 }).ret =
      some (Value.float64 (Float64.mk 0), some "upstream unavailable") ∧
    (memoStep Kind.float64 (Getter.float64 failingFloat)
      (memoStep Kind.float64 (Getter.float64 failingFloat)
        (Cached.init (Getter.float64 failingFloat) minute) { now := unixEpoch, st := 0 }).c
      { now := unixEpoch + 59 * second, st := 1 }).calls = 0 :=
  have h := error_memoized Kind.float64 (Cached.init (Getter.float64 failingFloat) minute)
    (memoStep Kind.float64 (Getter.float64 failingFloat))
    { now := unixEpoch, st := 0 } { now := unixEpoch + 59 * second, st := 1 }
    "upstream unavailable" (accessor_ok Kind.float64 _ rfl) (by decide) rfl (by decide)
  ⟨h.2.1, h.2.2.1⟩

/-- One `ResetCached` reaches every instance built before it: in every state of
a running process, each instance is afterwards what its own reset handler
makes of it, with `updated` at the zero timestamp, and each instance whose TTL
is below the largest duration recomputes on its next accessor call, made when
the clock reads a date at least `maxDuration` after the zero timestamp, and
returns what the getter then produces. -/
theorem reset_reaches_all (s : Sys σ) (hs : Sys.Reachable s) (i : Nat) (c : Cached σ)
    (hc : s.heap[i]? = some c) :
    (ResetCached s).heap[i]? = some c.reset ∧
    c.reset.updated = zeroTime ∧
    (ResetCached s).heap.length = s.heap.length ∧
    ∀ (k : Kind) (f : Accessor Value σ) (env : Env σ), c.accessor k = .ok f →
      c.cache < maxDuration → maxDuration ≤ env.now →
      (f c.reset env).calls = 1 ∧ (f c.reset env).ret = some (c.getter.invoke env).1 := by
  refine ⟨ResetCached_get s hs i c hc, rfl, Publish_length s.bus s.heap, ?_⟩
  intro k f env hf hmax hclock
  have hk := accessor_kind k c f hf
  have hstale : Since env.now c.reset.updated > c.reset.cache := by
    show Since env.now zeroTime > c.cache
    rw [Since_zero_of_late env.now hclock]
    exact hmax
  have h2 := memoStep_stale k c.getter c.reset env hk hstale
  rw [accessor_eq k c f hf, h2]
  exact ⟨rfl, rfl⟩

/-- Reachability of the two-instance scenario. -/
theorem pairSysUsed_reachable : Sys.Reachable pairSysUsed :=
  Sys.Reachable.call pairSysFirst 1 Kind.int64
    (Cached.init (Getter.int64 countingInt) (24 * hour))
    (memoStep Kind.int64 (Getter.int64 countingInt)) { now := unixEpoch, st := 1 }
    (Sys.Reachable.call pairSys 0 Kind.float64
      (Cached.init (Getter.float64 countingFloat) hour)
      (memoStep Kind.float64 (Getter.float64 countingFloat)) { now := unixEpoch, st := 0 }
      (Sys.Reachable.newCached _ _ _
        (Sys.Reachable.newCached _ _ _ Sys.Reachable.empty))
      rfl (accessor_ok Kind.float64 _ rfl))
    rfl (accessor_ok Kind.int64 _ rfl)

/-- The scenario of the specification for the global reset: two
instances with long TTLs, one value consumed from each, one reset; both have
`updated` at the zero timestamp and both recompute on the next access, made one
minute after the values were consumed. -/
theorem reset_reaches_all_witness :
    (pairSysUsed.heap.map Cached.updated = [unixEpoch, unixEpoch]) ∧
    ((ResetCached pairSysUsed).heap.map Cached.updated = [zeroTime, zeroTime]) ∧
    (memoStep Kind.float64 (Getter.float64 countingFloat)
      (memoStep Kind.float64 (Getter.float64 countingFloat)
        (Cached.init (Getter.float64 countingFloat) hour)
        { now := unixEpoch, st := 0 }).c.reset
      { now := unixEpoch + minute, st := 2 }).calls = 1 ∧
    (memoStep Kind.int64 (Getter.int64 countingInt)
      (memoStep Kind.int64 (Getter.int64 countingInt)
        (Cached.init (Getter.int64 countingInt) (24 * hour))
        { now := unixEpoch, st := 1 }).c.reset
      { now := unixEpoch + minute, st := 3 }).calls = 1 :=
  ⟨by decide, by decide,
    ((reset_reaches_all pairSysUsed pairSysUsed_reachable 0
      (memoStep Kind.float64 (Getter.float64 countingFloat)
        (Cached.init (Getter.float64 countingFloat) hour) { now := unixEpoch, st := 0 }).c
      rfl).2.2.2 Kind.float64 (memoStep Kind.float64 (Getter.float64 countingFloat))
      { now := unixEpoch + minute, st := 2 } (accessor_ok Kind.float64 _ rfl)
      (by decide) (by decide)).1,
    ((reset_reaches_all pairSysUsed pairSysUsed_reachable 1
      (memoStep Kind.int64 (Getter.int64 countingInt)
        (Cached.init (Getter.int64 countingInt) (24 * hour)) { now := unixEpoch, st := 1 }).c
      rfl).2.2.2 Kind.int64 (memoStep Kind.int64 (Getter.int64 countingInt))
      { now := unixEpoch + minute, st := 3 } (accessor_ok Kind.int64 _ rfl)
      (by decide) (by decide)).1⟩

/-- C6, the code at the failing input. Of two instances built by `NewCached`,
the second with the largest duration as TTL, both have `updated` at the zero
timestamp after one `ResetCached`, but the next `InterfaceGetter` call on the
second, made at the Unix epoch, does not invoke the getter and returns
`(nil, nil)`. -/
theorem reset_max_ttl :
    ((ResetCached maxSys).heap.map Cached.updated = [zeroTime, zeroTime]) ∧
    ∃ f, (Cached.init (Getter.iface countingIface) maxDuration).InterfaceGetter = .ok f ∧
      ((ResetCached maxSys).call 1 f { now := unixEpoch, st := 0 }).map
        (fun r => (r.1.calls, r.1.ret)) = some (0, some (Value.nil, none)) :=
  ⟨by decide, _, rfl, by decide⟩

/-- C7. The reset handler changes only `updated`: the memoized value, the
memoized error, the TTL and the getter are what they were, and `updated` is
the zero timestamp. -/
theorem reset_frame (c : Cached σ) :
    c.reset.val = c.val ∧ c.reset.err = c.err ∧ c.reset.cache = c.cache ∧
    c.reset.getter = c.getter ∧ c.reset.updated = zeroTime :=
  ⟨rfl, rfl, rfl, rfl, rfl⟩

/-- C8. For every accessor kind `A` and every instance whose getter is of kind
`G`, among the seven supported kinds: obtaining accessor `A` succeeds if and
only if `A = G`; when `A` differs from `G` the method ends in `Fatalf` with the
getter's type in the message and yields no callable at all. -/
theorem accessor_iff_kind (A G : Kind) (c : Cached σ) (hG : c.getter.kind = some G) :
    ((∃ f, c.accessor A = .ok f) ↔ A = G) ∧
    (A ≠ G → c.accessor A = .error (Fatalf c.getter)) := by
  have hfail : A ≠ G → c.accessor A = .error (Fatalf c.getter) := by
    intro hne
    apply accessor_error
    rw [hG]
    intro h
    injection h with h
    exact hne h.symm
  refine ⟨⟨?_, ?_⟩, hfail⟩
  · rintro ⟨f, hf⟩
    have hk := accessor_kind A c f hf
    rw [hG] at hk
    injection hk with hk
    exact hk.symm
  · intro h
    subst h
    exact ⟨_, accessor_ok A c hG⟩

/-- Witness of C8, the scenario of the specification: `StringGetter` on an
instance built from a `func() (float64, error)` getter ends in `Fatalf`, while
`FloatGetter` on the same instance yields its callable. -/
theorem accessor_iff_kind_witness :
    (Cached.init (Getter.float64 countingFloat) minute).StringGetter
      = .error "invalid type: func() (float64, error)" ∧
    (Cached.init (Getter.float64 countingFloat) minute).accessor Kind.string
      = .error "invalid type: func() (float64, error)" ∧
    ((∃ f, (Cached.init (Getter.float64 countingFloat) minute).accessor Kind.float64 = .ok f)
      ↔ Kind.float64 = Kind.float64) :=
  ⟨rfl,
   (accessor_iff_kind Kind.string Kind.float64
      (Cached.init (Getter.float64 countingFloat) minute) rfl).2 (by decide),
   (accessor_iff_kind Kind.float64 Kind.float64
      (Cached.init (Getter.float64 countingFloat) minute) rfl).1⟩

/-- C9. In every state an instance passes through, an accessor call that
recomputes returns exactly the pair the wrapped getter returned on that
invocation, the value next to a non-nil error included; and on every call,
when the error memoized once the call has done its update is the non-nil `e`,
the call returns the memoized value with that same `e`. -/
theorem errors_passed_through (getter : Getter σ) (cache : Int) (c : Cached σ)
    (hr : Cached.Reachable getter cache c) (k : Kind) (f : Accessor Value σ) (env : Env σ)
    (hf : c.accessor k = .ok f) :
    (Since env.now c.updated > c.cache →
      (f c env).calls = 1 ∧ (f c env).ret = some (getter.invoke env).1) ∧
    (∀ e : String, (f c env).c.err = some e →
      (f c env).ret = some ((f c env).c.val, some e)) := by
  obtain ⟨hg, _, hv⟩ := memo_typed getter cache c hr
  have hk : c.getter.kind = some k := accessor_kind k c f hf
  rw [accessor_eq k c f hf]
  constructor
  · intro hstale
    rw [memoStep_stale k c.getter c env hk hstale, hg]
    exact ⟨rfl, rfl⟩
  · intro e he
    by_cases hstale : Since env.now c.updated > c.cache
    · rw [memoStep_stale k c.getter c env hk hstale] at he ⊢
      simp only [Cached.refreshed] at he ⊢
      rw [← he]
    · rw [memoStep_fresh k c.getter c env (not_lt.mp hstale)] at he ⊢
      simp only at he ⊢
      rcases hv with ⟨_, hnone⟩ | htyped
      · rw [hnone] at he
        cases he
      · rw [hg] at hk
        simp [Cached.returned, htyped k hk, he]

/-- Witness of C9: a failing `float64` getter; the recomputing call at the
epoch returns the getter's value together with its error, and so does the call
30 s later that is served from the memo. -/
theorem errors_passed_through_witness :
    (memoStep Kind.float64 (Getter.float64 failingFloat)
      (Cached.init (Getter.float64 failingFloat) minute)
      { now := unixEpoch, st := 0 }).ret
      = some (Value.float64 (Float64.mk 0), some "upstream unavailable") ∧
    (memoStep Kind.float64 (Getter.float64 failingFloat)
      (memoStep Kind.float64 (Getter.float64 failingFloat)
        (Cached.init (Getter.float64 failingFloat) minute) { now := unixEpoch, st := 0 }).c
      { now := unixEpoch + 30 * second, st := 1 }).ret
      = some (Value.float64 (Float64.mk 0), some "upstream unavailable") :=
  ⟨((errors_passed_through (Getter.float64 failingFloat) minute
      (Cached.init (Getter.float64 failingFloat) minute) Cached.Reachable.init
      Kind.float64 (memoStep Kind.float64 (Getter.float64 failingFloat))
      { now := unixEpoch, st := 0 } (accessor_ok Kind.float64 _ rfl)).1 (by decide)).2,
   (errors_passed_through (Getter.float64 failingFloat) minute
      (memoStep Kind.float64 (Getter.float64 failingFloat)
        (Cached.init (Getter.float64 failingFloat) minute) { now := unixEpoch, st := 0 }).c
      (Cached.Reachable.call _ Kind.float64 (memoStep Kind.float64 (Getter.float64 failingFloat))
        { now := unixEpoch, st := 0 } Cached.Reachable.init (accessor_ok Kind.float64 _ rfl))
      Kind.float64 (memoStep Kind.float64 (Getter.float64 failingFloat))
      { now := unixEpoch + 30 * second, st := 1 } (accessor_ok Kind.float64 _ rfl)).2
      "upstream unavailable" rfl⟩

theorem Since_pos_iff (now t : Int) : Since now t > 0 ↔ t < now := by
  unfold Since Sub
  simp only [maxDuration, minDuration]
  split_ifs <;> constructor <;> intro h <;> omega

theorem Since_gt_iff (now t d : Int) (hmin : minDuration ≤ d) (hneg : d < 0) :
    Since now t > d ↔ t + d < now := by
  unfold Since Sub
  simp only [maxDuration, minDuration] at *
  split_ifs <;> constructor <;> intro h <;> omega

/-- C10 (as amended). With a TTL of zero an accessor call invokes the wrapped
getter exactly when the clock reading is strictly later than `updated`, so a
call made at the very reading stamped by the last recompute is served from the
memo and changes nothing. With a negative TTL every accessor call made at a
reading not earlier than `updated` invokes the getter; exactly, for a negative
TTL that is a representable duration, the call invokes the getter when and
only when the reading is later than `updated` plus the TTL. -/
theorem nonpositive_ttl (k : Kind) (c : Cached σ) (f : Accessor Value σ) (env : Env σ)
    (hf : c.accessor k = .ok f) :
    (c.cache = 0 → ((f c env).calls = 1 ↔ c.updated < env.now)) ∧
    (c.cache = 0 → env.now = c.updated → (f c env).calls = 0 ∧ (f c env).c = c) ∧
    (c.cache < 0 → c.updated ≤ env.now → (f c env).calls = 1) ∧
    (c.cache < 0 → minDuration ≤ c.cache →
      ((f c env).calls = 1 ↔ c.updated + c.cache < env.now)) := by
  rw [accessor_eq k c f hf]
  refine ⟨?_, ?_, ?_, ?_⟩
  · intro hzero
    rw [memoStep_calls, hzero, ← Since_pos_iff]
    split_ifs with h <;> simp [h]
  · intro hzero heq
    have hfresh : Since env.now c.updated ≤ c.cache := by
      rw [heq, Since_self, hzero]
    rw [memoStep_fresh k c.getter c env hfresh]
    exact ⟨rfl, rfl⟩
  · intro hneg hclock
    have hstale : Since env.now c.updated > c.cache :=
      lt_of_lt_of_le hneg (Since_nonneg env.now c.updated hclock)
    simp [memoStep_calls, hstale]
  · intro hneg hmin
    rw [memoStep_calls, ← Since_gt_iff env.now c.updated c.cache hmin hneg]
    split_ifs with h <;> simp [h]

/-- Witness of C10 (as amended): with a TTL of -1 ns two consecutive calls at
the same reading of a deterministic clock each invoke the getter. -/
theorem nonpositive_ttl_witness :
    (memoStep Kind.float64 (Getter.float64 countingFloat)
      (Cached.init (Getter.float64 countingFloat) (-1)) { now := unixEpoch, st := 0 }).calls = 1 ∧
    (memoStep Kind.float64 (Getter.float64 countingFloat)
      (memoStep Kind.float64 (Getter.float64 countingFloat)
        (Cached.init (Getter.float64 countingFloat) (-1)) { now := unixEpoch, st := 0 }).c
      { now := unixEpoch, st := 1 }).calls = 1 :=
  ⟨(nonpositive_ttl Kind.float64 (Cached.init (Getter.float64 countingFloat) (-1))
      (memoStep Kind.float64 (Getter.float64 countingFloat)) { now := unixEpoch, st := 0 }
      (accessor_ok Kind.float64 (Cached.init (Getter.float64 countingFloat) (-1)) rfl)).2.2.1
      (by decide) (by decide),
   (nonpositive_ttl Kind.float64
      (memoStep Kind.float64 (Getter.float64 countingFloat)
        (Cached.init (Getter.float64 countingFloat) (-1)) { now := unixEpoch, st := 0 }).c
      (memoStep Kind.float64 (Getter.float64 countingFloat)) { now := unixEpoch, st := 1 }
      (accessor_ok Kind.float64
        (memoStep Kind.float64 (Getter.float64 countingFloat)
          (Cached.init (Getter.float64 countingFloat) (-1)) { now := unixEpoch, st := 0 }).c rfl)).2.2.1
      (by decide) (by decide)⟩

/-- Counterexample to C10 as stated. With a TTL of zero, two consecutive
`FloatGetter` calls made at the same reading of a deterministic clock invoke
the getter once in total: the second call is served from the memo. With a TTL
of -1 ns, a call made after the clock was set back by an hour behind the last
recompute does not invoke the getter either. -/
theorem nonpositive_ttl_counterexample :
    (∃ f, (Cached.init (Getter.float64 countingFloat) 0).FloatGetter = .ok f ∧
      (f (Cached.init (Getter.float64 countingFloat) 0) { now := unixEpoch, st := 0 }).calls = 1 ∧
      (f (f (Cached.init (Getter.float64 countingFloat) 0) { now := unixEpoch, st := 0 }).c
        { now := unixEpoch, st := 1 }).calls = 0 ∧
      (runCalls f (Cached.init (Getter.float64 countingFloat) 0) 0
        [unixEpoch, unixEpoch]).2.2.2 = 1 ∧
      (runCalls f (Cached.init (Getter.float64 countingFloat) 0) 0
        [unixEpoch, unixEpoch]).1 = [some (Float64.mk 0, none), some (Float64.mk 0, none)]) ∧
    (∃ f, (Cached.init (Getter.float64 countingFloat) (-1)).FloatGetter = .ok f ∧
      (runCalls f (Cached.init (Getter.float64 countingFloat) (-1)) 0
        [unixEpoch + hour, unixEpoch]).2.2.2 = 1 ∧
      (f (f (Cached.init (Getter.float64 countingFloat) (-1))
          { now := unixEpoch + hour, st := 0 }).c
        { now := unixEpoch, st := 1 }).calls = 0) :=
  ⟨⟨_, rfl, by decide, by decide, by decide, by decide⟩, ⟨_, rfl, by decide, by decide⟩⟩

/-- The stored pair along a history: the initial `(nil, nil)` while the getter
has never run, afterwards the pair of the most recent invocation. -/
theorem history_pair (getter : Getter σ) (cache : Int) (c : Cached σ) (last : Option (Env σ))
    (h : Cached.History getter cache c last) :
    c.getter = getter ∧
    (last = none → c.val = Value.nil ∧ c.err = none) ∧
    (∀ e, last = some e → (c.val, c.err) = (getter.invoke e).1) := by
  induction h with
  | init => simp [Cached.init]
  | call c last k f env _ hf ih =>
    obtain ⟨hg, hnone, hsome⟩ := ih
    have hk := accessor_kind k c f hf
    rw [accessor_eq k c f hf]
    by_cases hstale : Since env.now c.updated > c.cache
    · rw [memoStep_stale k c.getter c env hk hstale]
      simp [Cached.refreshed, hg]
    · rw [memoStep_fresh k c.getter c env (not_lt.mp hstale)]
      simpa [hg] using ⟨hnone, hsome⟩
  | reset c last _ ih => simpa [Cached.reset] using ih

/-- C11. Pairing invariant: in every state an instance reaches from
`NewCached` through accessor calls (at any clock readings) and resets once the
getter has been invoked at least once, the stored `(value, error)` is exactly
the pair the most recent getter invocation returned; and every accessor call
returns the pair stored when it returns, which is again the pair of one single
invocation: the previous one when the call is a hit, its own when it
recomputes. -/
theorem pairing_invariant (getter : Getter σ) (cache : Int) (c : Cached σ) (e : Env σ)
    (h : Cached.History getter cache c (some e)) :
    (c.val, c.err) = (getter.invoke e).1 ∧
    ∀ (k : Kind) (f : Accessor Value σ) (env : Env σ), c.accessor k = .ok f →
      (f c env).ret = some ((f c env).c.val, (f c env).c.err) ∧
      ((f c env).c.val, (f c env).c.err)
        = (getter.invoke (if (f c env).calls = 0 then e else env)).1 := by
  obtain ⟨hg, _, hsome⟩ := history_pair getter cache c (some e) h
  have hpair := hsome e rfl
  refine ⟨hpair, ?_⟩
  intro k f env hf
  have hk := accessor_kind k c f hf
  rw [accessor_eq k c f hf]
  by_cases hstale : Since env.now c.updated > c.cache
  · rw [memoStep_stale k c.getter c env hk hstale]
    simp [Cached.refreshed, hg]
  · rw [memoStep_fresh k c.getter c env (not_lt.mp hstale)]
    have hval : c.val = (getter.invoke e).1.1 := congrArg Prod.fst hpair
    have htyped : c.val.hasKind k = true := by
      rw [hval]
      exact invoke_hasKind k getter e (hg ▸ hk)
    simp [Cached.returned, htyped, hpair]

/-- Witness of C11: a failing `float64` getter invoked once at the epoch; the
stored pair is that invocation's value with that invocation's error, and a
call 30 s later returns exactly it. -/
theorem pairing_invariant_witness :
    (memoStep Kind.float64 (Getter.float64 failingFloat)
      (memoStep Kind.float64 (Getter.float64 failingFloat)
        (Cached.init (Getter.float64 failingFloat) minute) { now := unixEpoch, st := 0 }).c
      { now := unixEpoch + 30 * second, st := 1 }).ret
      = some (Value.float64 (Float64.mk 0), some "upstream unavailable") :=
  ((pairing_invariant (Getter.float64 failingFloat) minute
      (memoStep Kind.float64 (Getter.float64 failingFloat)
        (Cached.init (Getter.float64 failingFloat) minute) { now := unixEpoch, st := 0 }).c
      { now := unixEpoch, st := 0 }
      (Cached.History.call (Cached.init (Getter.float64 failingFloat) minute) none Kind.float64
        (memoStep Kind.float64 (Getter.float64 failingFloat)) { now := unixEpoch, st := 0 }
        Cached.History.init
        (accessor_ok Kind.float64 (Cached.init (Getter.float64 failingFloat) minute) rfl))).2
    Kind.float64 (memoStep Kind.float64 (Getter.float64 failingFloat))
    { now := unixEpoch + 30 * second, st := 1 }
    (accessor_ok Kind.float64
      (memoStep Kind.float64 (Getter.float64 failingFloat)
        (Cached.init (Getter.float64 failingFloat) minute) { now := unixEpoch, st := 0 }).c
      rfl)).1

/-- An instance whose `updated` is set has recomputed: its stored value passes
the type assertion of its getter's accessor. -/
theorem memo_set_typed (getter : Getter σ) (cache : Int) (c : Cached σ)
    (h : Cached.Reachable getter cache c) :
    (c.val = Value.nil ∧ c.err = none ∧ c.updated = zeroTime) ∨
    ∀ k, getter.kind = some k → c.val.hasKind k = true := by
  induction h with
  | init => left; simp [Cached.init]
  | call c k f env hr hf ih =>
    have hg := (memo_typed getter cache c hr).1
    have hk := accessor_kind k c f hf
    rw [accessor_eq k c f hf]
    unfold memoStep
    split_ifs
    · right
      intro k2 hk2
      rw [hg] at hk
      rw [hk] at hk2
      cases hk2
      rw [hg]
      exact invoke_hasKind k getter env hk
    · exact ih
  | reset c _ ih =>
    rcases ih with ⟨hv, he, _⟩ | ht
    · left; exact ⟨hv, he, rfl⟩
    · right; exact ht

/-- C13. The staleness test is strict: for every instance on its way from
`NewCached` whose `updated` is set, an accessor call made when the elapsed time
since `updated` is exactly the TTL does not invoke the getter, returns the
memoized pair and leaves the instance as it was; the getter is invoked exactly
when the elapsed time is greater than the TTL. -/
theorem staleness_strict (getter : Getter σ) (cache : Int) (c : Cached σ)
    (hr : Cached.Reachable getter cache c) (hset : c.updated ≠ zeroTime)
    (k : Kind) (f : Accessor Value σ) (env : Env σ) (hf : c.accessor k = .ok f) :
    (Since env.now c.updated = c.cache →
      (f c env).calls = 0 ∧ (f c env).ret = some (c.val, c.err) ∧ (f c env).c = c ∧
      (f c env).env = env) ∧
    ((f c env).calls = 1 ↔ Since env.now c.updated > c.cache) ∧
    ((f c env).calls = 0 ↔ Since env.now c.updated ≤ c.cache) := by
  have hg := (memo_typed getter cache c hr).1
  have hk := accessor_kind k c f hf
  rw [accessor_eq k c f hf]
  refine ⟨?_, ?_, ?_⟩
  · intro heq
    rw [memoStep_fresh k c.getter c env (le_of_eq heq)]
    have htyped : c.val.hasKind k = true := by
      rcases memo_set_typed getter cache c hr with ⟨_, _, hz⟩ | ht
      · exact absurd hz hset
      · exact ht k (hg ▸ hk)
    simp [Cached.returned, htyped]
  · rw [memoStep_calls]
    split_ifs with h <;> simp [h]
  · rw [memoStep_calls]
    split_ifs with h
    · simp [h]
    · simp [not_lt.mp h]

/-- Witness of C13: one-minute TTL, value consumed at the epoch, next call
exactly one minute later. -/
theorem staleness_strict_witness :
    Since (unixEpoch + minute) unixEpoch = minute ∧
    (memoStep Kind.float64 (Getter.float64 countingFloat)
      (memoStep Kind.float64 (Getter.float64 countingFloat)
        (Cached.init (Getter.float64 countingFloat) minute) { now := unixEpoch, st := 0 }).c
      { now := unixEpoch + minute, st := 1 }).calls = 0 ∧
    (memoStep Kind.float64 (Getter.float64 countingFloat)
      (memoStep Kind.float64 (Getter.float64 countingFloat)
        (Cached.init (Getter.float64 countingFloat) minute) { now := unixEpoch, st := 0 }).c
      { now := unixEpoch + minute, st := 1 }).ret = some (Value.float64 (Float64.mk 0), none) :=
  have h := (staleness_strict (Getter.float64 countingFloat) minute
    (memoStep Kind.float64 (Getter.float64 countingFloat)
      (Cached.init (Getter.float64 countingFloat) minute) { now := unixEpoch, st := 0 }).c
    (Cached.Reachable.call (Cached.init (Getter.float64 countingFloat) minute) Kind.float64
      (memoStep Kind.float64 (Getter.float64 countingFloat)) { now := unixEpoch, st := 0 }
      Cached.Reachable.init
      (accessor_ok Kind.float64 (Cached.init (Getter.float64 countingFloat) minute) rfl))
    (by decide) Kind.float64 (memoStep Kind.float64 (Getter.float64 countingFloat))
    { now := unixEpoch + minute, st := 1 }
    (accessor_ok Kind.float64
      (memoStep Kind.float64 (Getter.float64 countingFloat)
        (Cached.init (Getter.float64 countingFloat) minute) { now := unixEpoch, st := 0 }).c
      rfl)).1 (by decide)
  ⟨by decide, h.1, h.2.1⟩

/-- C14. All seven typed accessors implement the same memo transition: each of
`FloatGetter`, `IntGetter`, `StringGetter`, `BoolGetter`, `DurationGetter`,
`TimeGetter` and `InterfaceGetter`, on an instance holding a getter of its own
type, yields a callable which in every state and world makes the decision and
the update of `memoTransition` on what its getter gives (same test, same new
value, error and `updated`, same number of invocations), and returns the
stored value at its own static type together with the stored error. -/
theorem accessors_same_transition (c0 : Cached σ) (gF : Fn Float64 σ) (gI : Fn Int σ)
    (gS : Fn String σ) (gB : Fn Bool σ) (gD : Fn Int σ) (gT : Fn Int σ) (gV : Fn Value σ) :
    (∃ f, ({ c0 with getter := Getter.float64 gF } : Cached σ).FloatGetter = .ok f ∧
      ∀ (c : Cached σ) (env : Env σ),
        (f c env).transition = memoTransition c env ((Getter.float64 gF).invoke env) ∧
        (f c env).ret = (asFloat64 (f c env).c.val).map (fun v => (v, (f c env).c.err))) ∧
    (∃ f, ({ c0 with getter := Getter.int64 gI } : Cached σ).IntGetter = .ok f ∧
      ∀ (c : Cached σ) (env : Env σ),
        (f c env).transition = memoTransition c env ((Getter.int64 gI).invoke env) ∧
        (f c env).ret = (asInt64 (f c env).c.val).map (fun v => (v, (f c env).c.err))) ∧
    (∃ f, ({ c0 with getter := Getter.string gS } : Cached σ).StringGetter = .ok f ∧
      ∀ (c : Cached σ) (env : Env σ),
        (f c env).transition = memoTransition c env ((Getter.string gS).invoke env) ∧
        (f c env).ret = (asString (f c env).c.val).map (fun v => (v, (f c env).c.err))) ∧
    (∃ f, ({ c0 with getter := Getter.bool gB } : Cached σ).BoolGetter = .ok f ∧
      ∀ (c : Cached σ) (env : Env σ),
        (f c env).transition = memoTransition c env ((Getter.bool gB).invoke env) ∧
        (f c env).ret = (asBool (f c env).c.val).map (fun v => (v, (f c env).c.err))) ∧
    (∃ f, ({ c0 with getter := Getter.duration gD } : Cached σ).DurationGetter = .ok f ∧
      ∀ (c : Cached σ) (env : Env σ),
        (f c env).transition = memoTransition c env ((Getter.duration gD).invoke env) ∧
        (f c env).ret = (asDuration (f c env).c.val).map (fun v => (v, (f c env).c.err))) ∧
    (∃ f, ({ c0 with getter := Getter.time gT } : Cached σ).TimeGetter = .ok f ∧
      ∀ (c : Cached σ) (env : Env σ),
        (f c env).transition = memoTransition c env ((Getter.time gT).invoke env) ∧
        (f c env).ret = (asTime (f c env).c.val).map (fun v => (v, (f c env).c.err))) ∧
    (∃ f, ({ c0 with getter := Getter.iface gV } : Cached σ).InterfaceGetter = .ok f ∧
      ∀ (c : Cached σ) (env : Env σ),
        (f c env).transition = memoTransition c env ((Getter.iface gV).invoke env) ∧
        (f c env).ret = some ((f c env).c.val, (f c env).c.err)) := by
  refine ⟨⟨_, rfl, ?_⟩, ⟨_, rfl, ?_⟩, ⟨_, rfl, ?_⟩, ⟨_, rfl, ?_⟩, ⟨_, rfl, ?_⟩, ⟨_, rfl, ?_⟩,
    ⟨_, rfl, ?_⟩⟩ <;>
  · intro c env
    simp only [Outcome.transition, memoTransition, Getter.invoke]
    split_ifs <;> exact ⟨rfl, rfl⟩

/-- C15. On a recomputing accessor call `updated` is set to the clock reading
taken after the wrapped getter has returned, not to the reading of the
staleness test: the next TTL window is measured from the getter's completion,
and a later call whose elapsed time since that completion is at most the TTL
does not invoke the getter and returns the memoized pair. -/
theorem stamp_after_getter (k : Kind) (c : Cached σ) (f : Accessor Value σ) (env env2 : Env σ)
    (hf : c.accessor k = .ok f) (hstale : Since env.now c.updated > c.cache)
    (hwin : Since env2.now (c.getter.invoke env).2.now ≤ c.cache) :
    (f c env).c.updated = (c.getter.invoke env).2.now ∧
    (f (f c env).c env2).calls = 0 ∧
    (f (f c env).c env2).ret = some (c.getter.invoke env).1 ∧
    (f (f c env).c env2).c.updated = (c.getter.invoke env).2.now := by
  have hk := accessor_kind k c f hf
  have hfe := accessor_eq k c f hf
  subst hfe
  rw [memoStep_stale k c.getter c env hk hstale]
  have h2 := memoStep_fresh k c.getter (c.refreshed c.getter env) env2 hwin
  simp only [h2, returned_refreshed k c c.getter env hk]
  simp [Cached.refreshed]

/-- Witness of C15: a getter that takes ten seconds behind a one-minute TTL.
The call at the epoch stamps the epoch plus 10 s; a call 65 s after the epoch,
more than the TTL after the first reading but 55 s after the getter's
completion, is served from the memo. -/
theorem stamp_after_getter_witness :
    Since (unixEpoch + 65 * second) unixEpoch > minute ∧
    (memoStep Kind.float64 (Getter.float64 slowFloat)
      (Cached.init (Getter.float64 slowFloat) minute)
      { now := unixEpoch, st := 0 }).c.updated = unixEpoch + 10 * second ∧
    (memoStep Kind.float64 (Getter.float64 slowFloat)
      (memoStep Kind.float64 (Getter.float64 slowFloat)
        (Cached.init (Getter.float64 slowFloat) minute) { now := unixEpoch, st := 0 }).c
      { now := unixEpoch + 65 * second, st := 1 }).calls = 0 :=
  have h := stamp_after_getter Kind.float64 (Cached.init (Getter.float64 slowFloat) minute)
    (memoStep Kind.float64 (Getter.float64 slowFloat))
    { now := unixEpoch, st := 0 } { now := unixEpoch + 65 * second, st := 1 }
    (accessor_ok Kind.float64 (Cached.init (Getter.float64 slowFloat) minute) rfl)
    (by decide) (by decide)
  ⟨by decide, h.1, h.2.1⟩

/-- C16, the code at the failing input. A `bool` getter behind the largest
duration as TTL: three `BoolGetter` calls, at the epoch, an hour and a day
later, never invoke the getter and each fails the assertion `c.val.(bool)` on
the unset memo; the same holds for the call that follows a reset. -/
theorem type_assertion_max_ttl :
    ∃ f, (Cached.init (Getter.bool countingBool) maxDuration).BoolGetter = .ok f ∧
      (runCalls f (Cached.init (Getter.bool countingBool) maxDuration) 0
        [unixEpoch, unixEpoch + hour, unixEpoch + 24 * hour]).1 = [none, none, none] ∧
      (runCalls f (Cached.init (Getter.bool countingBool) maxDuration) 0
        [unixEpoch, unixEpoch + hour, unixEpoch + 24 * hour]).2.2.2 = 0 ∧
      (f (Cached.init (Getter.bool countingBool) maxDuration).reset
        { now := unixEpoch + hour, st := 0 }).ret = none ∧
      (f (Cached.init (Getter.bool countingBool) maxDuration).reset
        { now := unixEpoch + hour, st := 0 }).c.val = Value.nil :=
  ⟨_, rfl, by decide, by decide, by decide, by decide⟩

/-- C17. A cache hit is read-only: for every instance state with the elapsed
time since `updated` at most the TTL, an accessor call invokes nothing and
leaves the instance (value, error and `updated` in particular) and the world
unchanged; the window is not extended by the read, a later call recomputes
exactly when the elapsed time since the same `updated` exceeds the TTL. -/
theorem hit_read_only (k : Kind) (c : Cached σ) (f : Accessor Value σ) (env : Env σ)
    (hf : c.accessor k = .ok f) (hfresh : Since env.now c.updated ≤ c.cache) :
    (f c env).calls = 0 ∧ (f c env).c = c ∧ (f c env).env = env ∧
    (f c env).c.val = c.val ∧ (f c env).c.err = c.err ∧ (f c env).c.updated = c.updated ∧
    ∀ env2 : Env σ, ((f (f c env).c env2).calls = 1 ↔ Since env2.now c.updated > c.cache) := by
  have hfe := accessor_eq k c f hf
  subst hfe
  rw [memoStep_fresh k c.getter c env hfresh]
  refine ⟨rfl, rfl, rfl, rfl, rfl, rfl, ?_⟩
  intro env2
  simp only [memoStep_calls]
  split_ifs with h <;> simp [h]

/-- Witness of C17: a value consumed at the epoch, read again 30 s later; the
read leaves `updated` at the epoch. -/
theorem hit_read_only_witness :
    (memoStep Kind.float64 (Getter.float64 countingFloat)
      { updated := unixEpoch, cache := minute, getter := Getter.float64 countingFloat,
        val := Value.float64 (Float64.mk 0), err := none }
      { now := unixEpoch + 30 * second, st := 1 }).c.updated = unixEpoch ∧
    (memoStep Kind.float64 (Getter.float64 countingFloat)
      { updated := unixEpoch, cache := minute, getter := Getter.float64 countingFloat,
        val := Value.float64 (Float64.mk 0), err := none }
      { now := unixEpoch + 30 * second, st := 1 }).calls = 0 :=
  have h := hit_read_only Kind.float64
    { updated := unixEpoch, cache := minute, getter := Getter.float64 countingFloat,
      val := Value.float64 (Float64.mk 0), err := none }
    (memoStep Kind.float64 (Getter.float64 countingFloat))
    { now := unixEpoch + 30 * second, st := 1 }
    (accessor_ok Kind.float64 _ rfl) (by decide)
  ⟨h.2.2.2.2.2.1, h.1⟩

/-- What calling an accessor method on the instance at `p` gives: the receiver
exists, its getter is of the method's kind, and the callable runs the memo
step on the instance at `p`. -/
theorem method_ok (s : Sys σ) (p : Nat) (k : Kind) (f : Callable Value σ)
    (h : s.accessor p k = .ok f) :
    ∃ c, s.heap[p]? = some c ∧ c.getter.kind = some k ∧
      f = fun s1 env => s1.call p (memoStep k c.getter) env := by
  unfold Sys.accessor Sys.method at h
  cases hc : s.heap[p]? with
  | none => simp [hc] at h
  | some c =>
    cases hacc : c.accessor k with
    | error e => simp [hc, hacc] at h
    | ok g =>
      simp only [hc, hacc] at h
      injection h with h
      refine ⟨c, rfl, accessor_kind k c g hacc, ?_⟩
      rw [← h, accessor_eq k c g hacc]

/-- C18. Callables obtained from one instance share its memo: when the accessor
method is called twice on the instance at address `i`, giving `f1` and `f2`
(the second obtained before or after `f1` is called), and `f1` is called and
recomputes, then `f2`, called afterwards while the elapsed time since that
recompute does not exceed the TTL, does not invoke the getter, so that the
getter is invoked once in total, and returns the pair `f1` returned. -/
theorem shared_memo (s s' : Sys σ) (i : Nat) (k : Kind) (f1 f2 : Callable Value σ)
    (env1 env2 : Env σ) (o1 : Outcome Value σ) (s1 : Sys σ)
    (hf1 : s.accessor i k = .ok f1)
    (hwhen : s' = s ∨ s' = s1) (hf2 : s'.accessor i k = .ok f2)
    (h1 : f1 s env1 = some (o1, s1)) (hre : o1.calls = 1)
    (hwin : Since env2.now o1.c.updated ≤ o1.c.cache) :
    ∃ o2 s2, f2 s1 env2 = some (o2, s2) ∧
      o2.calls = 0 ∧
      o1.calls + o2.calls = 1 ∧
      o2.ret = o1.ret ∧
      o2.c = o1.c := by
  obtain ⟨c, hc, hk, hfe1⟩ := method_ok s i k f1 hf1
  subst hfe1
  simp only [Sys.call, hc, Option.some.injEq, Prod.mk.injEq] at h1
  obtain ⟨ho, hs1⟩ := h1
  subst ho
  have hlt : i < s.heap.length := (List.getElem?_eq_some_iff.mp hc).1
  have hget1 : s1.heap[i]? = some (memoStep k c.getter c env1).c := by
    rw [← hs1]
    simp [List.getElem?_set, hlt]
  have hfe2 : f2 = fun s2 env => s2.call i (memoStep k c.getter) env := by
    obtain ⟨c2, hc2, _, hfe2⟩ := method_ok s' i k f2 hf2
    rcases hwhen with h | h
    · rw [h, hc] at hc2
      injection hc2 with hc2
      rw [hfe2, ← hc2]
    · rw [h, hget1] at hc2
      injection hc2 with hc2
      rw [hfe2, ← hc2, (memoStep_getter k c.getter c env1).1]
  subst hfe2
  have hstale1 : Since env1.now c.updated > c.cache := by
    by_contra hn
    rw [memoStep_fresh k _ c env1 (not_lt.mp hn)] at hre
    simp at hre
  have h2 := memoStep_fresh k c.getter (memoStep k c.getter c env1).c env2 hwin
  refine ⟨_, _, call_of_get s1 i _ (memoStep k c.getter) env2 hget1, ?_⟩
  rw [h2, memoStep_stale k c.getter c env1 hk hstale1]
  simp [returned_refreshed k c c.getter env1 hk]

/-- Witness of C18: `FloatGetter` is called twice on the instance of `demoSys`;
the first callable is called at the epoch and recomputes, the second is called
one second later, invokes nothing and returns the same pair. -/
theorem shared_memo_witness :
    ∃ f1 f2, demoSys.FloatGetter 0 = .ok f1 ∧ demoSys.FloatGetter 0 = .ok f2 ∧
      ((f1 demoSys { now := unixEpoch, st := 0 }).bind
        (fun r => (f2 r.2 { now := unixEpoch + second, st := 1 }).map
          (fun r2 => (r.1.calls, r.1.ret, r2.1.calls, r2.1.ret))))
        = some (1, some (Float64.mk 0, none), 0, some (Float64.mk 0, none)) ∧
      ∃ o2 s2, demoSysUsed.call 0 (memoStep Kind.float64 (Getter.float64 countingFloat))
          { now := unixEpoch + second, st := 1 } = some (o2, s2) ∧
        o2.calls = 0 ∧ o2.ret = some (Value.float64 (Float64.mk 0), none) :=
  have h := shared_memo demoSys demoSys 0 Kind.float64
    (fun s2 env => s2.call 0 (memoStep Kind.float64 (Getter.float64 countingFloat)) env)
    (fun s2 env => s2.call 0 (memoStep Kind.float64 (Getter.float64 countingFloat)) env)
    { now := unixEpoch, st := 0 } { now := unixEpoch + second, st := 1 }
    (memoStep Kind.float64 (Getter.float64 countingFloat)
      (Cached.init (Getter.float64 countingFloat) minute) { now := unixEpoch, st := 0 })
    demoSysUsed
    (by
      show Sys.method (Cached.accessor Kind.float64) demoSys 0 = _
      simp only [Sys.method, demoSys, NewCached, Sys.empty, List.nil_append, List.length_nil,
        List.getElem?_cons_zero,
        accessor_ok Kind.float64 (Cached.init (Getter.float64 countingFloat) minute) rfl]
      rfl)
    (Or.inl rfl)
    (by
      show Sys.method (Cached.accessor Kind.float64) demoSys 0 = _
      simp only [Sys.method, demoSys, NewCached, Sys.empty, List.nil_append, List.length_nil,
        List.getElem?_cons_zero,
        accessor_ok Kind.float64 (Cached.init (Getter.float64 countingFloat) minute) rfl]
      rfl)
    rfl (by decide) (by decide)
  ⟨_, _, rfl, rfl, rfl,
    h.elim fun o2 hx => hx.elim fun s2 hy =>
      ⟨o2, s2, hy.1, hy.2.1, hy.2.2.2.1.trans (by decide)⟩⟩

/-- Callables of two instances do not share a memo: in `twinSys` the callable
of the first instance recomputes at the epoch, and one second later the
callable of the second instance invokes the getter itself. -/
theorem twin_callables_separate :
    ∃ f g, twinSys.FloatGetter 0 = .ok f ∧ twinSys.FloatGetter 1 = .ok g ∧
      ((f twinSys { now := unixEpoch, st := 0 }).bind
        (fun r => (g r.2 { now := unixEpoch + second, st := 1 }).map
          (fun r2 => (r.1.calls, r2.1.calls, r2.1.ret))))
        = some (1, 1, some (Float64.mk 1, none)) :=
  ⟨_, _, rfl, rfl, rfl⟩

end Provider

namespace Vw

theorem trimSuffix_append (a suf : List Char) : TrimSuffix (a ++ suf) suf = a := by
  have h : HasSuffix (a ++ suf) suf = true := by
    simp [HasSuffix, List.isSuffixOf_iff_suffix]
  simp only [TrimSuffix, h, if_true]
  apply List.take_left'
  simp

theorem trimSuffix_of_not (s suf : List Char) (h : HasSuffix s suf = false) :
    TrimSuffix s suf = s := by
  simp [TrimSuffix, h]

theorem trimPrefix_append (pre rest : List Char) : TrimPrefix (pre ++ rest) pre = rest := by
  have h : HasPrefix (pre ++ rest) pre = true := by
    simp [HasPrefix, List.isPrefixOf_iff_prefix]
  simp [TrimPrefix, h]

/-- Behind the host name, a trailing `/api` of the whole address lies in the
part that follows the host. -/
theorem hasSuffix_host (tail : List Char) :
    HasSuffix ("https://fal-3a.prd.eu.dp.vwg-connect.com".toList ++ tail) "/api".toList
      = HasSuffix tail "/api".toList := by
  cases ht : HasSuffix tail "/api".toList
  · cases hw : HasSuffix ("https://fal-3a.prd.eu.dp.vwg-connect.com".toList ++ tail) "/api".toList
    · rfl
    · exfalso
      have h1 : "/api".toList <:+ "https://fal-3a.prd.eu.dp.vwg-connect.com".toList ++ tail := by
        simpa [HasSuffix, List.isSuffixOf_iff_suffix] using hw
      have h2 : tail <:+ "https://fal-3a.prd.eu.dp.vwg-connect.com".toList ++ tail :=
        List.suffix_append _ _
      rcases List.suffix_or_suffix_of_suffix h1 h2 with h | h
      · have : HasSuffix tail "/api".toList = true := by
          simpa [HasSuffix, List.isSuffixOf_iff_suffix] using h
        rw [ht] at this
        cases this
      · have hm : tail ∈ List.tails "/api".toList := (List.mem_tails _ _).mpr h
        have hcases : tail = "/api".toList ∨ tail = "api".toList ∨ tail = "pi".toList ∨
            tail = "i".toList ∨ tail = [] := by
          simpa [List.tails] using hm
        rcases hcases with h | h | h | h | h <;> subst h <;> revert hw ht <;> decide
  · have h : "/api".toList <:+ tail := by
      simpa [HasSuffix, List.isSuffixOf_iff_suffix] using ht
    obtain ⟨t0, rfl⟩ := h
    have key : HasSuffix (("https://fal-3a.prd.eu.dp.vwg-connect.com".toList ++ t0)
        ++ "/api".toList) "/api".toList = true := by
      unfold HasSuffix
      exact List.isSuffixOf_iff_suffix.mpr (List.suffix_append _ _)
    rw [List.append_assoc] at key
    exact key

theorem trimSuffix_host (tail : List Char) :
    TrimSuffix ("https://fal-3a.prd.eu.dp.vwg-connect.com".toList ++ tail) "/api".toList
      = "https://fal-3a.prd.eu.dp.vwg-connect.com".toList ++ TrimSuffix tail "/api".toList := by
  cases ht : HasSuffix tail "/api".toList
  · rw [trimSuffix_of_not tail _ ht, trimSuffix_of_not _ _ (by rw [hasSuffix_host, ht])]
  · have h : "/api".toList <:+ tail := by
      simpa [HasSuffix, List.isSuffixOf_iff_suffix] using ht
    obtain ⟨t0, rfl⟩ := h
    rw [trimSuffix_append, ← List.append_assoc, trimSuffix_append]

theorem rewrite_host (tail : List Char) :
    "https://fal".toList
        ++ TrimPrefix ("https://mal-3a.prd.eu.dp.vwg-connect.com".toList ++ tail)
            "https://mal".toList
      = "https://fal-3a.prd.eu.dp.vwg-connect.com".toList ++ tail := by
  have hm : "https://mal-3a.prd.eu.dp.vwg-connect.com".toList
      = "https://mal".toList ++ "-3a.prd.eu.dp.vwg-connect.com".toList := by decide
  have hfal : "https://fal-3a.prd.eu.dp.vwg-connect.com".toList
      = "https://fal".toList ++ "-3a.prd.eu.dp.vwg-connect.com".toList := by decide
  rw [hm, hfal, List.append_assoc, trimPrefix_append, List.append_assoc]

/-- C19. The base-URI rewrite of `HomeRegion`. The method returns the error of
the request. When the request succeeds and the returned api URL is the host
`https://mal-3a.prd.eu.dp.vwg-connect.com` followed by `tail`, the client's
`baseURI` becomes the host with `mal` turned into `fal`, followed by `tail`
without one trailing `/api` if it has one, followed by `/fs-car`: it starts
with `https://fal-3a.prd.eu.dp.vwg-connect.com` and ends with `/fs-car`, and
brand and country are untouched. When the request fails or the URL lacks that
prefix, the client is left unchanged. -/
theorem homeRegion_rewrite (getJSON : List Char → Option String × HomeRegion) (v : API)
    (vin : List Char) :
    (v.HomeRegion getJSON vin).1 = (getJSON (homeRegionURI vin)).1 ∧
    (∀ tail : List Char, (getJSON (homeRegionURI vin)).1 = none →
      (getJSON (homeRegionURI vin)).2.Content
        = "https://mal-3a.prd.eu.dp.vwg-connect.com".toList ++ tail →
      (v.HomeRegion getJSON vin).2.baseURI
        = "https://fal-3a.prd.eu.dp.vwg-connect.com".toList
            ++ TrimSuffix tail "/api".toList ++ "/fs-car".toList ∧
      HasPrefix (v.HomeRegion getJSON vin).2.baseURI
        "https://fal-3a.prd.eu.dp.vwg-connect.com".toList = true ∧
      HasSuffix (v.HomeRegion getJSON vin).2.baseURI "/fs-car".toList = true ∧
      (v.HomeRegion getJSON vin).2.brand = v.brand ∧
      (v.HomeRegion getJSON vin).2.country = v.country) ∧
    ((getJSON (homeRegionURI vin)).1 ≠ none ∨
      HasPrefix (getJSON (homeRegionURI vin)).2.Content
        "https://mal-3a.prd.eu.dp.vwg-connect.com".toList = false →
      (v.HomeRegion getJSON vin).2 = v) := by
  refine ⟨?_, ?_, ?_⟩
  · unfold API.HomeRegion
    simp only
    split_ifs <;> rfl
  · intro tail herr hu
    have hpre : HasPrefix (getJSON (homeRegionURI vin)).2.Content
        "https://mal-3a.prd.eu.dp.vwg-connect.com".toList = true := by
      rw [hu]
      unfold HasPrefix
      exact List.isPrefixOf_iff_prefix.mpr (List.prefix_append _ _)
    have hbase : (v.HomeRegion getJSON vin).2.baseURI
        = "https://fal-3a.prd.eu.dp.vwg-connect.com".toList
            ++ TrimSuffix tail "/api".toList ++ "/fs-car".toList := by
      unfold API.HomeRegion
      simp only [herr, hpre, if_true]
      rw [hu, rewrite_host, trimSuffix_host]
    refine ⟨hbase, ?_, ?_, ?_, ?_⟩
    · rw [hbase, List.append_assoc]
      unfold HasPrefix
      exact List.isPrefixOf_iff_prefix.mpr (List.prefix_append _ _)
    · rw [hbase]
      unfold HasSuffix
      exact List.isSuffixOf_iff_suffix.mpr (List.suffix_append _ _)
    · unfold API.HomeRegion
      simp only [herr, hpre, if_true]
    · unfold API.HomeRegion
      simp only [herr, hpre, if_true]
  · intro h
    unfold API.HomeRegion
    simp only
    rcases h with h | h
    · simp only [h, if_false]
    · simp only [h, Bool.false_eq_true, if_false]
      split_ifs <;> rfl

/-- Witness of C19: the request succeeds with
`https://mal-3a.prd.eu.dp.vwg-connect.com/api`; the base URI becomes
`https://fal-3a.prd.eu.dp.vwg-connect.com/fs-car`. -/
theorem homeRegion_rewrite_witness :
    (API.HomeRegion
      (fun _ => (none, { SystemID := "ICTO".toList,
                         Content := "https://mal-3a.prd.eu.dp.vwg-connect.com/api".toList }))
      { brand := "VW".toList, country := "DE".toList, baseURI := DefaultBaseURI }
      "WVWZZZAAZJD000001".toList).2.baseURI
      = "https://fal-3a.prd.eu.dp.vwg-connect.com/fs-car".toList :=
  ((homeRegion_rewrite
      (fun _ => (none, { SystemID := "ICTO".toList,
                         Content := "https://mal-3a.prd.eu.dp.vwg-connect.com/api".toList }))
      { brand := "VW".toList, country := "DE".toList, baseURI := DefaultBaseURI }
      "WVWZZZAAZJD000001".toList).2.1 "/api".toList rfl (by decide)).1.trans (by decide)

end Vw
